import Mathlib

/-!
Verification of the pyxsi simulation-driver core (`src/py/pyxsi_utils.py`)
against its natural-language specification.

The simulation handle (`pyxsi.XSI`) is external to the Python module under
verification.  Modelled from the spec: the handle exposes its ports as a
list of (name, fixed-width binary string) pairs; reading a port returns the
stored string, writing replaces it, and advancing simulated time
(`sim.run(5000)`) is an arbitrary transformation `adv` of the whole handle
state (ports plus hidden design state of type `δ`), chosen by the design
under test.  Binary strings are `List Bool`, most significant bit first.
-/

namespace PyxsiSpec

/-- Unsigned big-endian interpretation of a binary string: Python `int(s, 2)`
(on a non-empty string of binary digits). -/
def bitsToNat (bs : List Bool) : Nat :=
  bs.foldl (fun a b => 2 * a + (if b then 1 else 0)) 0

/-- Binary digits with explicit fuel (first argument), so that the
definition is structurally recursive and evaluates by kernel reduction.
With fuel at least `n`, `natToBitsF fuel n` is the list of binary digits of
`n`, most significant first, empty for `0`. -/
def natToBitsF : Nat → Nat → List Bool
  | _, 0 => []
  | 0, _ + 1 => []
  | f + 1, m + 1 => natToBitsF f ((m + 1) / 2) ++ [decide ((m + 1) % 2 = 1)]

/-- Binary digits of `n`, most significant first; empty for `0`.
Auxiliary for Python's `f"{n:b}"`. -/
def natToBitsAux (n : Nat) : List Bool := natToBitsF n n

/-- Python `f"{n:b}"`: binary digits of `n`, with `0` rendered as `"0"`. -/
def natToBits (n : Nat) : List Bool :=
  if n = 0 then [false] else natToBitsAux n

/-- Left-pad with zeros to width `w` (no-op if already at least `w` long):
the `0{w}` part of Python's `f"{v:0{w}b}"`. -/
def padLeft (w : Nat) (bs : List Bool) : List Bool :=
  List.replicate (w - bs.length) false ++ bs

/-- The last `w` elements of `bs` (all of `bs` if `w ≥ bs.length`). -/
def takeLast (w : Nat) (bs : List Bool) : List Bool :=
  bs.drop (bs.length - w)

/-- Python slice `s[-w:]`.  For `w = 0` this is all of `s` (Python's `s[-0:]`
is `s[0:]`), otherwise the last `w` elements. -/
def pyTakeLast (w : Nat) (bs : List Bool) : List Bool :=
  if w = 0 then bs else takeLast w bs

/-- The binary string `_write_signal` stores for value `v` on a signal of
width `w`: Python `f"{v:0{w}b}"[-w:]`. -/
def writeBits (w v : Nat) : List Bool :=
  pyTakeLast w (padLeft w (natToBits v))

/-- Python `str.lower` on one character (signal names are ASCII). -/
def pyLowerChar (c : Char) : Char :=
  if 'A' ≤ c ∧ c ≤ 'Z' then Char.ofNat (c.toNat + 32) else c

/-- Python `str.lower` (signal names are ASCII). -/
def pyLower (s : String) : String :=
  ⟨s.data.map pyLowerChar⟩

/-- Association-list lookup by key (first match wins, as in a Python dict
whose keys are unique). -/
def alistLookup {α : Type} : List (String × α) → String → Option α
  | [], _ => none
  | p :: r, k => if p.1 = k then some p.2 else alistLookup r k

/-- Replace the value stored at key `k` (every occurrence), keeping key
order: Python `d[k] = v` on a present key. -/
def alistUpdate {α : Type} (l : List (String × α)) (k : String) (v : α) :
    List (String × α) :=
  l.map fun p => if p.1 = k then (p.1, v) else p

/-- Python `d[k] = v`: update in place if the key is present, else append. -/
def dictInsert {α : Type} (k : String) (v : α) (d : List (String × α)) :
    List (String × α) :=
  if d.any (fun p => p.1 = k) then alistUpdate d k v else d ++ [(k, v)]

/-- Error kinds raised by the driver (the Python code raises `Exception`
with distinguishing messages; the spec names them as below). -/
inductive SimError : Type
  | signalNotFound (name : String)
  | negativeValueUnsupported
  | simulationStalled
deriving DecidableEq, Repr

/-- Modelled from the spec: the simulation handle.  `ports` is the
enumerable port list (name together with current fixed-width binary value);
`hidden` is the design's internal state, opaque to the driver. -/
structure Sim (δ : Type) : Type where
  ports : List (String × List Bool)
  hidden : δ
deriving Repr

/-- Modelled from the spec: `sim.get_port_value(n)` returns the stored
binary string of a present port (the driver only calls it on resolved
names). -/
def getPortValue {δ : Type} (sim : Sim δ) (n : String) : List Bool :=
  (alistLookup sim.ports n).getD []

/-- Modelled from the spec: `sim.set_port_value(n, bs)` replaces the stored
binary string of port `n`. -/
def setPortValue {δ : Type} (sim : Sim δ) (n : String) (bs : List Bool) :
    Sim δ :=
  { sim with ports := alistUpdate sim.ports n bs }

/-- `_find_signal`: exact name if present among the port names, else the
lowercased name if that is present, else `SignalNotFoundError`. -/
def find_signal {δ : Type} (sim : Sim δ) (signal_name : String) :
    Except SimError String :=
  let signal_list := sim.ports.map Prod.fst
  if signal_name ∈ signal_list then .ok signal_name
  else if pyLower signal_name ∈ signal_list then .ok (pyLower signal_name)
  else .error (.signalNotFound signal_name)

/-- `_read_signal`: resolve, read the port's binary string, interpret as
unsigned binary. -/
def read_signal {δ : Type} (sim : Sim δ) (signal_name : String) :
    Except SimError Nat :=
  match find_signal sim signal_name with
  | .error e => .error e
  | .ok n => .ok (bitsToNat (getPortValue sim n))

/-- `_write_signal`: resolve, take the width from the current value's
length, reject negative values, then store `f"{v:0{w}b}"[-w:]`.  The error
component is paired with the handle state at the moment of the raise (no
write has happened yet in either error case, mirroring the source order). -/
def write_signal {δ : Type} (sim : Sim δ) (signal_name : String)
    (signal_value : Int) : Option SimError × Sim δ :=
  match find_signal sim signal_name with
  | .error e => (some e, sim)
  | .ok n =>
    let signal_len := (getPortValue sim n).length
    if signal_value < 0 then (some .negativeValueUnsupported, sim)
    else (none, setPortValue sim n (writeBits signal_len signal_value.toNat))

/-- Sequencing of stateful driver actions: a raised error aborts the rest
and keeps the state at the raise. -/
def stBind {δ : Type} (p : Option SimError × Sim δ)
    (f : Sim δ → Option SimError × Sim δ) : Option SimError × Sim δ :=
  match p with
  | (some e, s) => (some e, s)
  | (none, s) => f s

/-- `comb_update_and_trace`: a `pass` in the source. -/
def comb_update_and_trace {δ : Type} (sim : Sim δ) : Sim δ := sim

/-- `toggle_neg_edge`: drive the clock low, then advance simulated time
(`sim.run(5000)`, modelled by `adv`). -/
def toggle_neg_edge {δ : Type} (adv : Sim δ → Sim δ) (sim : Sim δ)
    (clk_name : String) : Option SimError × Sim δ :=
  stBind (write_signal sim clk_name 0) fun s => (none, adv s)

/-- Apply the pending writes, one `_write_signal` per pair in order; an
error keeps the partially-updated handle. -/
def applyWrites {δ : Type} : Sim δ → List (String × Int) →
    Option SimError × Sim δ
  | s, [] => (none, s)
  | s, (k, v) :: r => stBind (write_signal s k v) fun s' => applyWrites s' r

/-- `toggle_pos_edge`: drive the clock high, advance simulated time, then
(a delta cycle after the edge) apply the pending writes if the mapping is
non-empty, and finally `comb_update_and_trace`. -/
def toggle_pos_edge {δ : Type} (adv : Sim δ → Sim δ) (sim : Sim δ)
    (clk_name : String) (signals_to_write : List (String × Int)) :
    Option SimError × Sim δ :=
  stBind (write_signal sim clk_name 1) fun s =>
    stBind (if signals_to_write.isEmpty then (none, adv s)
            else applyWrites (adv s) signals_to_write) fun s' =>
      (none, comb_update_and_trace s')

/-- `toggle_clk`: one full clock cycle, falling then rising edge. -/
def toggle_clk {δ : Type} (adv : Sim δ → Sim δ) (sim : Sim δ)
    (clk_name : String) (signals_to_write : List (String × Int)) :
    Option SimError × Sim δ :=
  stBind (toggle_neg_edge adv sim clk_name) fun s =>
    toggle_pos_edge adv s clk_name signals_to_write

/-- `reset_rtlsim`: clock low, reset asserted, two plain cycles, one cycle
deasserting reset at its rising edge, one final plain cycle. -/
def reset_rtlsim {δ : Type} (adv : Sim δ → Sim δ) (sim : Sim δ)
    (rst_name : String) (active_low : Bool) (clk_name : String) :
    Option SimError × Sim δ :=
  stBind (write_signal sim clk_name 0) fun s =>
    stBind (write_signal s rst_name (if active_low then 0 else 1)) fun s =>
      stBind ((List.range 2).foldl
          (fun acc _ => stBind acc fun s' => toggle_clk adv s' clk_name [])
          (none, s)) fun s =>
        stBind (toggle_clk adv s clk_name
            [(rst_name, if active_low then 1 else 0)]) fun s =>
          toggle_clk adv s clk_name []

/-- The mutable program state of one `rtlsim_multi_io` invocation: the
handle, the two halves of `io_dict` (insertion-ordered, unique keys), and
the loop's counters and pending-writes dictionary. -/
structure EngineState (δ : Type) : Type where
  sim : Sim δ
  inputs : List (String × List Nat)
  outputs : List (String × List Nat)
  totalCycleCount : Nat
  outputCount : Nat
  oldOutputCount : Nat
  noChangeCount : Nat
  signalsToWrite : List (String × Int)

/-- Read phase over the input channels: for each channel in order, read
`TREADY` and (if it is 1) `TVALID`; when both are 1 the queue head is
popped (`inputs[1:]`).  A raised read error stops the sweep, keeping the
updates already made to earlier channels. -/
def readInputsSt {δ : Type} (sim : Sim δ) (sname : String) :
    List (String × List Nat) → Option SimError × List (String × List Nat)
  | [] => (none, [])
  | (c, q) :: rest =>
    match read_signal sim (c ++ sname ++ "TREADY") with
    | .error e => (some e, (c, q) :: rest)
    | .ok r =>
      if r = 1 then
        match read_signal sim (c ++ sname ++ "TVALID") with
        | .error e => (some e, (c, q) :: rest)
        | .ok v =>
          let q' := if v = 1 then q.drop 1 else q
          let rec' := readInputsSt sim sname rest
          (rec'.1, (c, q') :: rec'.2)
      else
        let rec' := readInputsSt sim sname rest
        (rec'.1, (c, q) :: rec'.2)

/-- Read phase over the output channels: when `TREADY` and `TVALID` both
read 1, read `TDATA`, append it to the channel's buffer and count one more
output word.  Returns the updated buffers and the number of words accepted
in this sweep. -/
def readOutputsSt {δ : Type} (sim : Sim δ) (sname : String) :
    List (String × List Nat) →
    Option SimError × List (String × List Nat) × Nat
  | [] => (none, [], 0)
  | (c, out) :: rest =>
    match read_signal sim (c ++ sname ++ "TREADY") with
    | .error e => (some e, (c, out) :: rest, 0)
    | .ok r =>
      if r = 1 then
        match read_signal sim (c ++ sname ++ "TVALID") with
        | .error e => (some e, (c, out) :: rest, 0)
        | .ok v =>
          if v = 1 then
            match read_signal sim (c ++ sname ++ "TDATA") with
            | .error e => (some e, (c, out) :: rest, 0)
            | .ok d =>
              let rec' := readOutputsSt sim sname rest
              (rec'.1, (c, out ++ [d]) :: rec'.2.1, rec'.2.2 + 1)
          else
            let rec' := readOutputsSt sim sname rest
            (rec'.1, (c, out) :: rec'.2.1, rec'.2.2)
      else
        let rec' := readOutputsSt sim sname rest
        (rec'.1, (c, out) :: rec'.2.1, rec'.2.2)

/-- Write-prep phase: for each input channel (post-pop queue), stage
`TVALID = 1` iff the queue is non-empty and `TDATA` = queue head (or 0)
into the pending-writes dictionary. -/
def stageWrites (sname : String)
    (d : List (String × Int)) : List (String × List Nat) →
    List (String × Int) :=
  List.foldl (fun d' p =>
    dictInsert (p.1 ++ sname ++ "TDATA")
      (match p.2 with | [] => (0 : Int) | h :: _ => (h : Int))
      (dictInsert (p.1 ++ sname ++ "TVALID")
        (if 0 < p.2.length then (1 : Int) else 0) d')) d

/-- Setup before the loop: drive every output channel's `TREADY` high. -/
def setupOutputs {δ : Type} (sim : Sim δ) (sname : String) :
    List (String × List Nat) → Option SimError × Sim δ
  | [] => (none, sim)
  | (c, _) :: rest =>
    stBind (write_signal sim (c ++ sname ++ "TREADY") 1) fun s =>
      setupOutputs s sname rest

/-- One loop body of `rtlsim_multi_io` up to (not including) the counter
updates: pre-clock hook, falling edge, read phase, write-prep phase, rising
edge with the staged writes, post-clock hook.  On an error the state at the
raise is returned (mirroring which in-place updates had already happened). -/
def stepBody {δ : Type} (adv hookPre hookPost : Sim δ → Sim δ)
    (sname : String) (st : EngineState δ) : Option SimError × EngineState δ :=
  let s0 := hookPre st.sim
  match toggle_neg_edge adv s0 "ap_clk" with
  | (some e, s1) => (some e, { st with sim := s1 })
  | (none, s1) =>
    match readInputsSt s1 sname st.inputs with
    | (some e, ins') => (some e, { st with sim := s1, inputs := ins' })
    | (none, ins') =>
      match readOutputsSt s1 sname st.outputs with
      | (some e, outs', k) =>
        (some e, { st with sim := s1, inputs := ins', outputs := outs',
                           outputCount := st.outputCount + k })
      | (none, outs', k) =>
        let writes := stageWrites sname st.signalsToWrite ins'
        match toggle_pos_edge adv s1 "ap_clk" writes with
        | (some e, s2) =>
          (some e, { st with sim := s2, inputs := ins', outputs := outs',
                             outputCount := st.outputCount + k,
                             signalsToWrite := writes })
        | (none, s2) =>
          (none, { st with sim := hookPost s2, inputs := ins',
                           outputs := outs',
                           outputCount := st.outputCount + k,
                           signalsToWrite := writes })

/-- Tail of one loop body: increment the cycle counter, update the liveness
counter (increment on no progress, reset and remember on progress), set the
success flag if the output count equals the target, and finally raise
`SimulationStalledError` when the liveness counter equals the threshold.
The Boolean is Python's `output_done`. -/
def stepCounters {δ : Type} (num_out_values liveness_threshold : Nat)
    (st : EngineState δ) : Option SimError × EngineState δ × Bool :=
  let st1 := { st with totalCycleCount := st.totalCycleCount + 1 }
  let st2 :=
    if st1.outputCount = st1.oldOutputCount then
      { st1 with noChangeCount := st1.noChangeCount + 1 }
    else
      { st1 with noChangeCount := 0, oldOutputCount := st1.outputCount }
  let output_done := decide (st2.outputCount = num_out_values)
  if st2.noChangeCount = liveness_threshold then
    (some .simulationStalled, st2, output_done)
  else
    (none, st2, output_done)

/-- One full iteration of the `while not output_done` loop. -/
def multiIOStep {δ : Type} (adv hookPre hookPost : Sim δ → Sim δ)
    (sname : String) (num_out_values liveness_threshold : Nat)
    (st : EngineState δ) : Option SimError × EngineState δ × Bool :=
  match stepBody adv hookPre hookPost sname st with
  | (some e, s) => (some e, s, false)
  | (none, s) => stepCounters num_out_values liveness_threshold s

/-- Run outcome of the engine: raised error, successful return of the cycle
count, or fuel exhausted with the loop still running.  Every constructor
carries the engine state (the caller's `io_dict` is aliased into it). -/
inductive RunOut (δ : Type) : Type
  | err (e : SimError) (st : EngineState δ)
  | done (cycles : Nat) (st : EngineState δ)
  | fuelOut (st : EngineState δ)

/-- The raised error of a run outcome, if any. -/
def RunOut.errOf {δ : Type} : RunOut δ → Option SimError
  | .err e _ => some e
  | _ => none

/-- The engine state carried by a run outcome. -/
def RunOut.state {δ : Type} : RunOut δ → EngineState δ
  | .err _ st => st
  | .done _ st => st
  | .fuelOut st => st

/-- Whether a run outcome is a successful return. -/
def RunOut.isDone {δ : Type} : RunOut δ → Bool
  | .done _ _ => true
  | _ => false

/-- Whether a run outcome ran out of fuel (loop still in progress). -/
def RunOut.isFuelOut {δ : Type} : RunOut δ → Bool
  | .fuelOut _ => true
  | _ => false

/-- The fueled `while not output_done` loop.  On `output_done` (and no
raise) the source returns `total_cycle_count`. -/
def multiIORun {δ : Type} (adv hookPre hookPost : Sim δ → Sim δ)
    (sname : String) (num_out_values liveness_threshold : Nat) :
    Nat → EngineState δ → RunOut δ
  | 0, st => .fuelOut st
  | fuel + 1, st =>
    match multiIOStep adv hookPre hookPost sname num_out_values
        liveness_threshold st with
    | (some e, s, _) => .err e s
    | (none, s, true) => .done s.totalCycleCount s
    | (none, s, false) =>
      multiIORun adv hookPre hookPost sname num_out_values
        liveness_threshold fuel s

/-- `rtlsim_multi_io` (fueled): drive all output `TREADY`s high, then run
the per-cycle loop from zeroed counters and an empty pending-writes
dictionary.  Hooks are modelled as total handle transformations (`id` for
an absent hook). -/
def rtlsim_multi_io {δ : Type} (fuel : Nat) (adv hookPre hookPost : Sim δ → Sim δ)
    (sim : Sim δ) (ins outs : List (String × List Nat))
    (num_out_values : Nat) (sname : String) (liveness_threshold : Nat) :
    RunOut δ :=
  match setupOutputs sim sname outs with
  | (some e, s) =>
    .err e { sim := s, inputs := ins, outputs := outs, totalCycleCount := 0,
             outputCount := 0, oldOutputCount := 0, noChangeCount := 0,
             signalsToWrite := [] }
  | (none, s) =>
    multiIORun adv hookPre hookPost sname num_out_values liveness_threshold
      fuel
      { sim := s, inputs := ins, outputs := outs, totalCycleCount := 0,
        outputCount := 0, oldOutputCount := 0, noChangeCount := 0,
        signalsToWrite := [] }

/-- Key-distinctness of the handshake signal names generated for a list of
input channel names: distinct channels yield distinct `TVALID` keys and
distinct `TDATA` keys, and no `TVALID` key collides with any `TDATA` key.
(Holds for any ordinary naming; needed because the pending-writes mapping
is keyed by these strings.) -/
def stageKeysOk (sname : String) (cs : List String) : Prop :=
  (cs.map (fun c => c ++ sname ++ "TVALID")).Nodup ∧
    (cs.map (fun c => c ++ sname ++ "TDATA")).Nodup ∧
    ∀ a ∈ cs, ∀ b ∈ cs, ¬ a ++ sname ++ "TVALID" = b ++ sname ++ "TDATA"

instance stageKeysOkDecidable (sname : String) (cs : List String) :
    Decidable (stageKeysOk sname cs) := by
  unfold stageKeysOk
  infer_instance

/-- `b` is the pointwise evolution of the input-queue mapping `a`: same
channel names in the same order, and every channel's queue in `b` is a
tail (`drop k`) of its queue in `a` — i.e. exactly the words not yet
consumed remain. -/
def queueTails (a b : List (String × List Nat)) : Prop :=
  b.length = a.length ∧
    ∀ i (h : i < a.length) (h' : i < b.length),
      (b.get ⟨i, h'⟩).1 = (a.get ⟨i, h⟩).1 ∧
        ∃ k, (b.get ⟨i, h'⟩).2 = (a.get ⟨i, h⟩).2.drop k

/-! ### Arithmetic of binary strings -/

theorem bitsToNat_nil : bitsToNat [] = 0 := rfl

theorem bitsToNat_concat (bs : List Bool) (b : Bool) :
    bitsToNat (bs ++ [b]) = 2 * bitsToNat bs + (if b then 1 else 0) := by
  simp [bitsToNat, List.foldl_append]

theorem bitsToNat_cons_false (bs : List Bool) :
    bitsToNat (false :: bs) = bitsToNat bs := by
  simp [bitsToNat, List.foldl]

theorem natToBitsF_fuel (k : Nat) :
    ∀ g, k ≤ g → natToBitsF g k = natToBitsF k k := by
  induction k using Nat.strong_induction_on with
  | _ k ih =>
    intro g hg
    cases k with
    | zero => cases g <;> rfl
    | succ m =>
      cases g with
      | zero => omega
      | succ f =>
        have h2 : (m + 1) / 2 < m + 1 :=
          Nat.div_lt_self (Nat.succ_pos m) (by decide)
        have e1 := ih ((m + 1) / 2) h2 f (by omega)
        have e2 := ih ((m + 1) / 2) h2 m (by omega)
        show natToBitsF f ((m + 1) / 2) ++ _ =
          natToBitsF m ((m + 1) / 2) ++ _
        rw [e1, e2]

theorem natToBitsAux_pos (n : Nat) (h : n ≠ 0) :
    natToBitsAux n = natToBitsAux (n / 2) ++ [decide (n % 2 = 1)] := by
  cases n with
  | zero => exact absurd rfl h
  | succ m =>
    show natToBitsF m ((m + 1) / 2) ++ _ = _
    rw [natToBitsF_fuel ((m + 1) / 2) m
      (by
        have := Nat.div_lt_self (Nat.succ_pos m) (by decide : 1 < 2)
        omega)]
    rfl

theorem bitsToNat_natToBitsAux (n : Nat) :
    bitsToNat (natToBitsAux n) = n := by
  induction n using Nat.strong_induction_on with
  | _ n ih =>
    cases n with
    | zero => simp [natToBitsAux, natToBitsF, bitsToNat]
    | succ m =>
      rw [natToBitsAux_pos _ (Nat.succ_ne_zero m), bitsToNat_concat,
        ih ((m + 1) / 2) (Nat.div_lt_self (Nat.succ_pos m) (by decide))]
      rcases Nat.mod_two_eq_zero_or_one (m + 1) with h | h <;> simp [h] <;>
        omega

theorem natToBitsAux_length (n : Nat) :
    ∀ w, n < 2 ^ w → (natToBitsAux n).length ≤ w := by
  induction n using Nat.strong_induction_on with
  | _ n ih =>
    intro w hw
    cases n with
    | zero => simp [natToBitsAux, natToBitsF]
    | succ m =>
      cases w with
      | zero => simp at hw
      | succ u =>
        rw [natToBitsAux_pos _ (Nat.succ_ne_zero m)]
        have hlt : (m + 1) / 2 < 2 ^ u := by
          rw [Nat.div_lt_iff_lt_mul (by decide : 0 < 2)]
          calc m + 1 < 2 ^ (u + 1) := hw
            _ = 2 ^ u * 2 := by rw [pow_succ]
        have := ih ((m + 1) / 2)
          (Nat.div_lt_self (Nat.succ_pos m) (by decide)) u hlt
        simp only [List.length_append, List.length_singleton,
          Nat.succ_eq_add_one] at this ⊢
        omega

theorem takeLast_zero (bs : List Bool) : takeLast 0 bs = [] := by
  simp [takeLast]

theorem takeLast_of_le {w : Nat} {bs : List Bool} (h : bs.length ≤ w) :
    takeLast w bs = bs := by
  simp [takeLast, Nat.sub_eq_zero_of_le h]

theorem takeLast_concat (w : Nat) (bs : List Bool) (b : Bool) :
    takeLast (w + 1) (bs ++ [b]) = takeLast w bs ++ [b] := by
  unfold takeLast
  rw [List.length_append, List.drop_append_eq_append_drop]
  have h1 : bs.length + [b].length - (w + 1) = bs.length - w := by
    simp only [List.length_singleton]; omega
  have h2 : bs.length - w - bs.length = 0 := by omega
  rw [h1, h2]
  rfl

theorem takeLast_length (w : Nat) (bs : List Bool) :
    (takeLast w bs).length = min w bs.length := by
  simp [takeLast, List.length_drop]
  omega

theorem mod_two_pow_succ (n w : Nat) :
    n % 2 ^ (w + 1) = 2 * (n / 2 % 2 ^ w) + n % 2 := by
  rw [pow_succ, mul_comm (2 ^ w) 2, Nat.mod_mul]
  exact Nat.add_comm _ _

theorem bitsToNat_takeLast_natToBitsAux (n : Nat) :
    ∀ w, bitsToNat (takeLast w (natToBitsAux n)) = n % 2 ^ w := by
  induction n using Nat.strong_induction_on with
  | _ n ih =>
    intro w
    cases n with
    | zero => simp [natToBitsAux, natToBitsF, takeLast, bitsToNat]
    | succ m =>
      cases w with
      | zero => simp [takeLast_zero, bitsToNat, Nat.mod_one]
      | succ u =>
        rw [natToBitsAux_pos _ (Nat.succ_ne_zero m), takeLast_concat,
          bitsToNat_concat,
          ih ((m + 1) / 2) (Nat.div_lt_self (Nat.succ_pos m) (by decide)) u,
          mod_two_pow_succ]
        rcases Nat.mod_two_eq_zero_or_one (m + 1) with h | h <;> simp [h]

theorem bitsToNat_takeLast_cons_false (w : Nat) (l : List Bool) :
    bitsToNat (takeLast w (false :: l)) = bitsToNat (takeLast w l) := by
  rcases le_or_lt (l.length + 1) w with h | h
  · rw [takeLast_of_le (by simpa using h), takeLast_of_le (by omega),
      bitsToNat_cons_false]
  · have h1 : (false :: l).length - w = (l.length - w) + 1 := by
      simp; omega
    unfold takeLast
    rw [h1, List.drop_succ_cons]

theorem bitsToNat_takeLast_pad (k w : Nat) (bs : List Bool) :
    bitsToNat (takeLast w (List.replicate k false ++ bs)) =
      bitsToNat (takeLast w bs) := by
  induction k with
  | zero => simp
  | succ j ih =>
    rw [List.replicate_succ, List.cons_append, bitsToNat_takeLast_cons_false,
      ih]

theorem writeBits_val (w v : Nat) (hw : 1 ≤ w) :
    bitsToNat (writeBits w v) = v % 2 ^ w := by
  unfold writeBits pyTakeLast padLeft
  rw [if_neg (by omega : ¬ w = 0), bitsToNat_takeLast_pad]
  unfold natToBits
  by_cases hv : v = 0
  · subst hv
    rw [if_pos rfl, takeLast_of_le (by simpa using hw)]
    simp [bitsToNat, List.foldl]
  · rw [if_neg hv, bitsToNat_takeLast_natToBitsAux]

theorem writeBits_length (w v : Nat) (hw : 1 ≤ w) :
    (writeBits w v).length = w := by
  unfold writeBits pyTakeLast padLeft
  rw [if_neg (by omega : ¬ w = 0)]
  simp [takeLast_length, List.length_append, List.length_replicate]
  omega

theorem writeBits_zero_val (w : Nat) : bitsToNat (writeBits w 0) = 0 := by
  cases w with
  | zero => decide
  | succ u => rw [writeBits_val _ _ (Nat.succ_le_succ (Nat.zero_le u))]; simp

/-! ### Association lists (port stores and pending-write dictionaries) -/

theorem alistUpdate_keys {α : Type} (l : List (String × α)) (k : String)
    (v : α) : (alistUpdate l k v).map Prod.fst = l.map Prod.fst := by
  induction l with
  | nil => rfl
  | cons p r ih =>
    by_cases h : p.1 = k <;> simp [alistUpdate, h] <;>
      simpa [alistUpdate] using ih

theorem alistLookup_update_self {α : Type} {l : List (String × α)}
    {k : String} (v : α) (h : (alistLookup l k).isSome) :
    alistLookup (alistUpdate l k v) k = some v := by
  induction l with
  | nil => simp [alistLookup] at h
  | cons p r ih =>
    by_cases hp : p.1 = k
    · simp [alistUpdate, alistLookup, hp]
    · simp [alistUpdate, alistLookup, hp] at h ⊢
      exact ih h

theorem alistLookup_update_ne {α : Type} {l : List (String × α)}
    {k k' : String} (v : α) (h : k' ≠ k) :
    alistLookup (alistUpdate l k v) k' = alistLookup l k' := by
  induction l with
  | nil => rfl
  | cons p r ih =>
    show alistLookup ((if p.1 = k then (p.1, v) else p) :: alistUpdate r k v)
      k' = _
    by_cases hp : p.1 = k
    · rw [if_pos hp]
      have hne : p.1 ≠ k' := fun hc => h (hc.symm.trans hp)
      simp [alistLookup, hne, ih]
    · rw [if_neg hp]
      simp [alistLookup, ih]

theorem alistLookup_isSome_of_mem_keys {α : Type} {l : List (String × α)}
    {n : String} (h : n ∈ l.map Prod.fst) : (alistLookup l n).isSome := by
  induction l with
  | nil => simp at h
  | cons p r ih =>
    rw [List.map_cons] at h
    rcases List.mem_cons.mp h with h1 | h1
    · simp [alistLookup, h1.symm]
    · by_cases hp : p.1 = n
      · simp [alistLookup, hp]
      · simp only [alistLookup, hp, if_false]
        exact ih h1

theorem setPortValue_keys {δ : Type} (sim : Sim δ) (n : String)
    (bs : List Bool) :
    (setPortValue sim n bs).ports.map Prod.fst = sim.ports.map Prod.fst :=
  alistUpdate_keys _ _ _

theorem getPortValue_set_self {δ : Type} {sim : Sim δ} {n : String}
    (bs : List Bool) (h : n ∈ sim.ports.map Prod.fst) :
    getPortValue (setPortValue sim n bs) n = bs := by
  simp [getPortValue, setPortValue,
    alistLookup_update_self bs (alistLookup_isSome_of_mem_keys h)]

theorem getPortValue_set_ne {δ : Type} {sim : Sim δ} {n m : String}
    (bs : List Bool) (h : m ≠ n) :
    getPortValue (setPortValue sim n bs) m = getPortValue sim m := by
  simp [getPortValue, setPortValue, alistLookup_update_ne bs h]

/-! ### Signal accessor facts -/

theorem find_signal_exact {δ : Type} {sim : Sim δ} {name : String}
    (h1 : name ∈ sim.ports.map Prod.fst) :
    find_signal sim name = .ok name := by
  simp [find_signal, h1]

theorem find_signal_lower {δ : Type} {sim : Sim δ} {name : String}
    (h1 : name ∉ sim.ports.map Prod.fst)
    (h2 : pyLower name ∈ sim.ports.map Prod.fst) :
    find_signal sim name = .ok (pyLower name) := by
  simp [find_signal, h1, h2]

theorem find_signal_missing {δ : Type} {sim : Sim δ} {name : String}
    (h1 : name ∉ sim.ports.map Prod.fst)
    (h2 : pyLower name ∉ sim.ports.map Prod.fst) :
    find_signal sim name = .error (.signalNotFound name) := by
  simp [find_signal, h1, h2]

theorem find_signal_ok_mem {δ : Type} {sim : Sim δ} {name n : String}
    (h : find_signal sim name = .ok n) : n ∈ sim.ports.map Prod.fst := by
  by_cases h1 : name ∈ sim.ports.map Prod.fst
  · rw [find_signal_exact h1] at h
    cases h
    exact h1
  · by_cases h2 : pyLower name ∈ sim.ports.map Prod.fst
    · rw [find_signal_lower h1 h2] at h
      cases h
      exact h2
    · rw [find_signal_missing h1 h2] at h
      cases h

theorem find_signal_congr {δ δ' : Type} {sim : Sim δ} {sim' : Sim δ'}
    (name : String)
    (h : sim'.ports.map Prod.fst = sim.ports.map Prod.fst) :
    find_signal sim' name = find_signal sim name := by
  unfold find_signal
  rw [h]

theorem write_signal_nonneg_eq {δ : Type} {sim : Sim δ} {name n : String}
    (h : find_signal sim name = .ok n) (v : Int) (hv : 0 ≤ v) :
    write_signal sim name v =
      (none, setPortValue sim n
        (writeBits (getPortValue sim n).length v.toNat)) := by
  simp only [write_signal, h]
  rw [if_neg (Int.not_lt.mpr hv)]

theorem stBind_none {δ : Type} (s : Sim δ) (f : Sim δ → Option SimError × Sim δ) :
    stBind (none, s) f = f s := rfl

theorem stBind_assoc {δ : Type} (p : Option SimError × Sim δ)
    (f g : Sim δ → Option SimError × Sim δ) :
    stBind (stBind p f) g = stBind p (fun s => stBind (f s) g) := by
  rcases p with ⟨e, s⟩
  cases e <;> rfl

/-! ### Claims about the signal accessor and the edge/reset primitives -/

/-- C1: for every signal of width `w ≥ 1` and every `v` with `0 ≤ v < 2^w`,
`_write_signal` followed by `_read_signal` on the same queried name returns
exactly `v`. -/
theorem writeUnsigned_readUnsigned_roundtrip {δ : Type} (sim : Sim δ)
    (name n : String) (v : Nat)
    (hfind : find_signal sim name = .ok n)
    (hw : 1 ≤ (getPortValue sim n).length)
    (hv : v < 2 ^ (getPortValue sim n).length) :
    (write_signal sim name ((v : Nat) : Int)).1 = none ∧
      read_signal (write_signal sim name ((v : Nat) : Int)).2 name =
        .ok v := by
  rw [write_signal_nonneg_eq hfind _ (Int.natCast_nonneg v),
    Int.toNat_natCast]
  refine ⟨rfl, ?_⟩
  have hkeys :=
    setPortValue_keys sim n (writeBits (getPortValue sim n).length v)
  have hfind' :
      find_signal (setPortValue sim n
        (writeBits (getPortValue sim n).length v)) name = .ok n := by
    rw [find_signal_congr name hkeys]
    exact hfind
  simp only [read_signal, hfind']
  rw [getPortValue_set_self _ (find_signal_ok_mem hfind),
    writeBits_val _ _ hw, Nat.mod_eq_of_lt hv]

/-- C1 witness: a 4-bit signal, value 11. -/
theorem writeUnsigned_readUnsigned_roundtrip_witness :
    (write_signal (⟨[("x", [false, false, false, false])], ()⟩ : Sim Unit)
        "x" ((11 : Nat) : Int)).1 = none ∧
      read_signal (write_signal
        (⟨[("x", [false, false, false, false])], ()⟩ : Sim Unit)
        "x" ((11 : Nat) : Int)).2 "x" = .ok 11 :=
  writeUnsigned_readUnsigned_roundtrip _ "x" "x" 11 rfl (by decide)
    (by decide)

/-- C2 counterexample: on a signal whose current value string is empty
(width 0), Python's `f"{v:00b}"[-0:]` is the whole binary rendering of `v`,
so writing `v = 1` stores the one-bit string `"1"` — value 1, not
`1 mod 2^0 = 0`, and not of width 0. -/
theorem writeUnsigned_width_zero_counterexample :
    (write_signal (⟨[("x", [])], ()⟩ : Sim Unit) "x" 1).1 = none ∧
      (getPortValue (⟨[("x", [])], ()⟩ : Sim Unit) "x").length = 0 ∧
      bitsToNat (getPortValue
          (write_signal (⟨[("x", [])], ()⟩ : Sim Unit) "x" 1).2 "x") ≠
        1 % 2 ^ (getPortValue (⟨[("x", [])], ()⟩ : Sim Unit) "x").length := by
  decide

/-- C2 (amended to widths `w ≥ 1`): the unsigned write never fails on
`v ≥ 0`; it stores exactly the low `w` bits of `v`: a string of length `w`
whose unsigned value is `v mod 2^w`. -/
theorem writeUnsigned_truncates_low_bits {δ : Type} (sim : Sim δ)
    (name n : String) (v : Nat)
    (hfind : find_signal sim name = .ok n)
    (hw : 1 ≤ (getPortValue sim n).length) :
    (write_signal sim name ((v : Nat) : Int)).1 = none ∧
      bitsToNat (getPortValue (write_signal sim name ((v : Nat) : Int)).2 n)
          = v % 2 ^ (getPortValue sim n).length ∧
      (getPortValue (write_signal sim name ((v : Nat) : Int)).2 n).length =
        (getPortValue sim n).length := by
  rw [write_signal_nonneg_eq hfind _ (Int.natCast_nonneg v),
    Int.toNat_natCast]
  refine ⟨rfl, ?_, ?_⟩
  · rw [getPortValue_set_self _ (find_signal_ok_mem hfind),
      writeBits_val _ _ hw]
  · rw [getPortValue_set_self _ (find_signal_ok_mem hfind),
      writeBits_length _ _ hw]

/-- C2 witness: writing 19 to a 4-bit signal stores 19 mod 16 = 3. -/
theorem writeUnsigned_truncates_low_bits_witness :
    (write_signal (⟨[("x", [false, false, false, false])], ()⟩ : Sim Unit)
        "x" ((19 : Nat) : Int)).1 = none ∧
      bitsToNat (getPortValue (write_signal
          (⟨[("x", [false, false, false, false])], ()⟩ : Sim Unit)
          "x" ((19 : Nat) : Int)).2 "x") = 19 % 2 ^ 4 ∧
      (getPortValue (write_signal
          (⟨[("x", [false, false, false, false])], ()⟩ : Sim Unit)
          "x" ((19 : Nat) : Int)).2 "x").length = 4 :=
  writeUnsigned_truncates_low_bits _ "x" "x" 19 rfl (by decide)

/-- C3: writing any negative value to a resolvable signal raises
`NegativeValueUnsupportedError`, with the handle state untouched (the raise
happens before any `set_port_value`). -/
theorem writeUnsigned_negative_fails {δ : Type} (sim : Sim δ)
    (name n : String) (v : Int)
    (hfind : find_signal sim name = .ok n) (hv : v < 0) :
    write_signal sim name v = (some .negativeValueUnsupported, sim) := by
  simp only [write_signal, hfind]
  rw [if_pos hv]

/-- C3 witness: writing −1. -/
theorem writeUnsigned_negative_fails_witness :
    write_signal (⟨[("x", [false, false])], ()⟩ : Sim Unit) "x" (-1) =
      (some .negativeValueUnsupported, (⟨[("x", [false, false])], ()⟩ : Sim Unit)) :=
  writeUnsigned_negative_fails _ "x" "x" (-1) rfl (by decide)

/-- C4: signal resolution returns the queried name when it is among the
port names, else its lowercased form when that is, else raises
`SignalNotFoundError`. -/
theorem find_signal_resolution_cases {δ : Type} (sim : Sim δ)
    (name : String) :
    (name ∈ sim.ports.map Prod.fst → find_signal sim name = .ok name) ∧
      (name ∉ sim.ports.map Prod.fst →
        pyLower name ∈ sim.ports.map Prod.fst →
        find_signal sim name = .ok (pyLower name)) ∧
      (name ∉ sim.ports.map Prod.fst →
        pyLower name ∉ sim.ports.map Prod.fst →
        find_signal sim name = .error (.signalNotFound name)) :=
  ⟨find_signal_exact, find_signal_lower, find_signal_missing⟩

/-- C4 witness: exact hit, lowercase fallback, and miss. -/
theorem find_signal_resolution_cases_witness :
    find_signal (⟨[("ap_clk", [false])], ()⟩ : Sim Unit) "ap_clk" =
        .ok "ap_clk" ∧
      find_signal (⟨[("ap_clk", [false])], ()⟩ : Sim Unit) "AP_CLK" =
        .ok "ap_clk" ∧
      find_signal (⟨[("ap_clk", [false])], ()⟩ : Sim Unit) "noSuchSignal" =
        .error (.signalNotFound "noSuchSignal") :=
  ⟨(find_signal_resolution_cases _ "ap_clk").1 (by decide),
    (find_signal_resolution_cases
      (⟨[("ap_clk", [false])], ()⟩ : Sim Unit) "AP_CLK").2.1
      (by decide) (by decide),
    (find_signal_resolution_cases _ "noSuchSignal").2.2
      (by decide) (by decide)⟩

/-- C9: the falling-edge operation writes the clock (and only the clock) to
zero, and only then advances simulated time. -/
theorem toggle_neg_edge_writes_only_clock {δ : Type}
    (adv : Sim δ → Sim δ) (sim : Sim δ) (clk_name n : String)
    (hfind : find_signal sim clk_name = .ok n) :
    toggle_neg_edge adv sim clk_name =
      (none, adv (setPortValue sim n
        (writeBits (getPortValue sim n).length 0))) ∧
      bitsToNat (writeBits (getPortValue sim n).length 0) = 0 ∧
      ∀ m, m ≠ n →
        getPortValue (setPortValue sim n
            (writeBits (getPortValue sim n).length 0)) m =
          getPortValue sim m := by
  refine ⟨?_, writeBits_zero_val _, fun m hm => getPortValue_set_ne _ hm⟩
  unfold toggle_neg_edge
  rw [write_signal_nonneg_eq hfind 0 le_rfl]
  rfl

/-- C9 witness: a two-port handle; the non-clock port is untouched. -/
theorem toggle_neg_edge_writes_only_clock_witness :
    toggle_neg_edge id (⟨[("ap_clk", [true]), ("y", [true])], ()⟩ : Sim Unit)
        "ap_clk" =
      (none, id (setPortValue
        (⟨[("ap_clk", [true]), ("y", [true])], ()⟩ : Sim Unit) "ap_clk"
        (writeBits 1 0))) ∧
      bitsToNat (writeBits 1 0) = 0 ∧
      ∀ m, m ≠ "ap_clk" →
        getPortValue (setPortValue
            (⟨[("ap_clk", [true]), ("y", [true])], ()⟩ : Sim Unit) "ap_clk"
            (writeBits 1 0)) m =
          getPortValue (⟨[("ap_clk", [true]), ("y", [true])], ()⟩ : Sim Unit)
            m :=
  toggle_neg_edge_writes_only_clock id _ "ap_clk" "ap_clk" rfl

/-- C8: the reset sequence is: clock low; reset driven to its asserted
level (0 when active-low, else 1); two full clock cycles with no pending
writes; one cycle whose rising edge applies the deasserted level (1 when
active-low, else 0) to the reset signal; one final cycle with no pending
writes — four full clock cycles in total. -/
theorem reset_sequence_four_cycles {δ : Type} (adv : Sim δ → Sim δ)
    (sim : Sim δ) (rst_name : String) (active_low : Bool)
    (clk_name : String) :
    reset_rtlsim adv sim rst_name active_low clk_name =
      stBind (write_signal sim clk_name 0) (fun s1 =>
        stBind (write_signal s1 rst_name (if active_low then 0 else 1))
          (fun s2 =>
            stBind (toggle_clk adv s2 clk_name []) (fun s3 =>
              stBind (toggle_clk adv s3 clk_name []) (fun s4 =>
                stBind (toggle_clk adv s4 clk_name
                    [(rst_name, if active_low then 1 else 0)]) (fun s5 =>
                  toggle_clk adv s5 clk_name []))))) := by
  unfold reset_rtlsim
  refine congrArg _ (funext fun s1 => ?_)
  refine congrArg _ (funext fun s2 => ?_)
  rw [show List.range 2 = [0, 1] from rfl]
  simp only [List.foldl]
  rw [stBind_none, stBind_assoc]

/-! ### Streaming engine: counter dynamics -/

theorem stepCounters_eq {δ : Type} (num t : Nat) (st : EngineState δ) :
    stepCounters num t st =
      (if (if st.outputCount = st.oldOutputCount then st.noChangeCount + 1
            else 0) = t then some SimError.simulationStalled else none,
        { st with
          totalCycleCount := st.totalCycleCount + 1,
          noChangeCount :=
            if st.outputCount = st.oldOutputCount then st.noChangeCount + 1
            else 0,
          oldOutputCount :=
            if st.outputCount = st.oldOutputCount then st.oldOutputCount
            else st.outputCount },
        decide (st.outputCount = num)) := by
  unfold stepCounters
  by_cases h : st.outputCount = st.oldOutputCount <;>
    by_cases h2 :
      (if st.outputCount = st.oldOutputCount then st.noChangeCount + 1
        else 0) = t <;>
    simp_all

theorem stepBody_counters {δ : Type} (adv hookPre hookPost : Sim δ → Sim δ)
    (sname : String) (st : EngineState δ) :
    (stepBody adv hookPre hookPost sname st).2.totalCycleCount =
        st.totalCycleCount ∧
      (stepBody adv hookPre hookPost sname st).2.noChangeCount =
        st.noChangeCount ∧
      (stepBody adv hookPre hookPost sname st).2.oldOutputCount =
        st.oldOutputCount := by
  unfold stepBody
  dsimp only
  repeat' split
  all_goals exact ⟨rfl, rfl, rfl⟩

theorem multiIOStep_of_body_ok {δ : Type}
    (adv hookPre hookPost : Sim δ → Sim δ) (sname : String) (num t : Nat)
    {st s : EngineState δ}
    (h : stepBody adv hookPre hookPost sname st = (none, s)) :
    multiIOStep adv hookPre hookPost sname num t st =
      stepCounters num t s := by
  unfold multiIOStep
  rw [h]

/-- C5: the no-progress counter increments on each cycle without new
output, resets to zero on each cycle with new output, and the iteration
raises `SimulationStalledError` precisely when the updated counter equals
the threshold — hence on the t-th consecutive no-progress cycle and no
later.  Concretely, with threshold 3 and a design that never raises
`TVALID` on its output channel, the run stalls with the cycle counter at
exactly 3, and has not yet stalled after 2 cycles. -/
theorem liveness_counter_dynamics {δ : Type}
    (adv hookPre hookPost : Sim δ → Sim δ) (sname : String) (num t : Nat)
    (st s : EngineState δ) :
    ((st.outputCount = st.oldOutputCount →
        (stepCounters num t st).2.1.noChangeCount = st.noChangeCount + 1) ∧
      (st.outputCount ≠ st.oldOutputCount →
        (stepCounters num t st).2.1.noChangeCount = 0) ∧
      ((stepCounters num t st).1 = some SimError.simulationStalled ↔
        (stepCounters num t st).2.1.noChangeCount = t)) ∧
      (stepBody adv hookPre hookPost sname st = (none, s) →
        multiIOStep adv hookPre hookPost sname num t st =
          stepCounters num t s) ∧
      (RunOut.errOf (rtlsim_multi_io 3 id id id
          (⟨[("ap_clk", [false]), ("out0_TREADY", [false]),
              ("out0_TVALID", [false]), ("out0_TDATA", [false, false])],
            ()⟩ : Sim Unit) [] [("out0", [])] 1 "_" 3) =
          some SimError.simulationStalled ∧
        (RunOut.state (rtlsim_multi_io 3 id id id
          (⟨[("ap_clk", [false]), ("out0_TREADY", [false]),
              ("out0_TVALID", [false]), ("out0_TDATA", [false, false])],
            ()⟩ : Sim Unit) [] [("out0", [])] 1 "_" 3)).totalCycleCount = 3 ∧
        RunOut.isFuelOut (rtlsim_multi_io 2 id id id
          (⟨[("ap_clk", [false]), ("out0_TREADY", [false]),
              ("out0_TVALID", [false]), ("out0_TDATA", [false, false])],
            ()⟩ : Sim Unit) [] [("out0", [])] 1 "_" 3) = true) := by
  refine ⟨⟨?_, ?_, ?_⟩, multiIOStep_of_body_ok _ _ _ _ _ _, by decide⟩
  · intro h
    rw [stepCounters_eq]
    simp [h]
  · intro h
    rw [stepCounters_eq]
    simp [h]
  · rw [stepCounters_eq]
    show (if (if st.outputCount = st.oldOutputCount then st.noChangeCount + 1
          else 0) = t then some SimError.simulationStalled else none) =
        some SimError.simulationStalled ↔
      (if st.outputCount = st.oldOutputCount then st.noChangeCount + 1
        else 0) = t
    split
    all_goals split <;> rename_i h
    all_goals first
      | exact ⟨fun _ => h, fun _ => rfl⟩
      | exact ⟨fun hc => Option.noConfusion hc, fun hc => absurd hc h⟩

/-- C5 witness: counter arithmetic at concrete states, and the body-to-step
composition at a concrete one-port engine state. -/
theorem liveness_counter_dynamics_witness :
    ((stepCounters 9 7
        (⟨⟨[], ()⟩, [], [], 5, 2, 2, 1, []⟩ : EngineState Unit)).2.1.noChangeCount
        = 2) ∧
      ((stepCounters 9 7
        (⟨⟨[], ()⟩, [], [], 5, 3, 2, 1, []⟩ : EngineState Unit)).2.1.noChangeCount
        = 0) ∧
      ((stepCounters 9 7
          (⟨⟨[], ()⟩, [], [], 5, 2, 2, 1, []⟩ : EngineState Unit)).1 =
          some SimError.simulationStalled ↔
        (stepCounters 9 7
          (⟨⟨[], ()⟩, [], [], 5, 2, 2, 1, []⟩ : EngineState Unit)).2.1.noChangeCount
          = 7) ∧
      multiIOStep id id id "_" 9 7
          (⟨⟨[("ap_clk", [false])], ()⟩, [], [], 0, 0, 0, 0, []⟩ :
            EngineState Unit) =
        stepCounters 9 7
          (⟨⟨[("ap_clk", [true])], ()⟩, [], [], 0, 0, 0, 0, []⟩ :
            EngineState Unit) :=
  ⟨(liveness_counter_dynamics id id id "_" 9 7
      (⟨⟨[], ()⟩, [], [], 5, 2, 2, 1, []⟩ : EngineState Unit)
      (⟨⟨[], ()⟩, [], [], 5, 2, 2, 1, []⟩ : EngineState Unit)).1.1 rfl,
    (liveness_counter_dynamics id id id "_" 9 7
      (⟨⟨[], ()⟩, [], [], 5, 3, 2, 1, []⟩ : EngineState Unit)
      (⟨⟨[], ()⟩, [], [], 5, 3, 2, 1, []⟩ : EngineState Unit)).1.2.1
      (by decide),
    (liveness_counter_dynamics id id id "_" 9 7
      (⟨⟨[], ()⟩, [], [], 5, 2, 2, 1, []⟩ : EngineState Unit)
      (⟨⟨[], ()⟩, [], [], 5, 2, 2, 1, []⟩ : EngineState Unit)).1.2.2,
    (liveness_counter_dynamics id id id "_" 9 7
      (⟨⟨[("ap_clk", [false])], ()⟩, [], [], 0, 0, 0, 0, []⟩ :
        EngineState Unit)
      (⟨⟨[("ap_clk", [true])], ()⟩, [], [], 0, 0, 0, 0, []⟩ :
        EngineState Unit)).2.1 rfl⟩

/-- C6 counterexample: with target output count 0 and liveness threshold 1,
the very first cycle both reaches the target (`output_count == 0`) and
drives the no-progress counter to the threshold; the source raises
`SimulationStalledError` instead of returning the cycle counter, because
the stall check, though written after the success check, is not suppressed
by it. -/
theorem success_stall_conflict_counterexample :
    RunOut.errOf (rtlsim_multi_io 1 id id id
        (⟨[("ap_clk", [false])], ()⟩ : Sim Unit) [] [] 0 "_" 1) =
        some SimError.simulationStalled ∧
      (RunOut.state (rtlsim_multi_io 1 id id id
        (⟨[("ap_clk", [false])], ()⟩ : Sim Unit) [] [] 0 "_" 1)).outputCount
        = 0 ∧
      RunOut.isDone (rtlsim_multi_io 1 id id id
        (⟨[("ap_clk", [false])], ()⟩ : Sim Unit) [] [] 0 "_" 1) = false := by
  decide

/-- C6 (amended): the cycle counter increases by exactly one on every
completed loop iteration; when the output count equals the target and the
just-updated no-progress counter differs from the threshold (automatic
whenever target and threshold are positive), the loop returns that cycle
counter; when both fire at once the stall error wins, even though the
success flag was already set. -/
theorem cycle_counter_and_success_return {δ : Type}
    (adv hookPre hookPost : Sim δ → Sim δ) (sname : String) (num t : Nat)
    (st s : EngineState δ) :
    ((stepBody adv hookPre hookPost sname st = (none, s) →
        (multiIOStep adv hookPre hookPost sname num t st).2.1.totalCycleCount
          = st.totalCycleCount + 1) ∧
      (stepBody adv hookPre hookPost sname st = (none, s) →
        s.outputCount = num →
        ¬ (if s.outputCount = s.oldOutputCount then s.noChangeCount + 1
            else 0) = t →
        ∀ fuel, multiIORun adv hookPre hookPost sname num t (fuel + 1) st =
          .done (st.totalCycleCount + 1) (stepCounters num t s).2.1) ∧
      (stepBody adv hookPre hookPost sname st = (none, s) →
        s.outputCount = num →
        (if s.outputCount = s.oldOutputCount then s.noChangeCount + 1
          else 0) = t →
        multiIOStep adv hookPre hookPost sname num t st =
          (some SimError.simulationStalled, (stepCounters num t s).2.1,
            true))) := by
  have htot : s.totalCycleCount = st.totalCycleCount →
      (stepCounters num t s).2.1.totalCycleCount = st.totalCycleCount + 1 := by
    intro h
    rw [stepCounters_eq]
    show s.totalCycleCount + 1 = st.totalCycleCount + 1
    rw [h]
  refine ⟨?_, ?_, ?_⟩
  · intro hbody
    rw [multiIOStep_of_body_ok adv hookPre hookPost sname num t hbody]
    have hpres := (stepBody_counters adv hookPre hookPost sname st).1
    rw [hbody] at hpres
    exact htot hpres
  · intro hbody hnum hnc fuel
    have hpres : s.totalCycleCount = st.totalCycleCount := by
      have h := (stepBody_counters adv hookPre hookPost sname st).1
      rw [hbody] at h
      exact h
    show (match multiIOStep adv hookPre hookPost sname num t st with
      | (some e, s', _) => RunOut.err e s'
      | (none, s', true) => RunOut.done s'.totalCycleCount s'
      | (none, s', false) =>
        multiIORun adv hookPre hookPost sname num t fuel s') = _
    rw [multiIOStep_of_body_ok adv hookPre hookPost sname num t hbody,
      stepCounters_eq, if_neg hnc, decide_eq_true hnum]
    dsimp only
    rw [hpres]
  · intro hbody hnum hnc
    rw [multiIOStep_of_body_ok adv hookPre hookPost sname num t hbody,
      stepCounters_eq, if_pos hnc, decide_eq_true hnum]

/-- C6 witness: concrete success-return and stall-precedence instances.
With target 0 and threshold 2 the single-channel-free engine returns after
one cycle; the cycle counter went from 0 to 1. -/
theorem cycle_counter_and_success_return_witness :
    ((multiIOStep id id id "_" 0 2
        (⟨⟨[("ap_clk", [false])], ()⟩, [], [], 0, 0, 0, 0, []⟩ :
          EngineState Unit)).2.1.totalCycleCount = 0 + 1) ∧
      multiIORun id id id "_" 0 2 1
          (⟨⟨[("ap_clk", [false])], ()⟩, [], [], 0, 0, 0, 0, []⟩ :
            EngineState Unit) =
        .done (0 + 1)
          (stepCounters 0 2
            (⟨⟨[("ap_clk", [true])], ()⟩, [], [], 0, 0, 0, 0, []⟩ :
              EngineState Unit)).2.1 ∧
      multiIOStep id id id "_" 0 1
          (⟨⟨[("ap_clk", [false])], ()⟩, [], [], 0, 0, 0, 0, []⟩ :
            EngineState Unit) =
        (some SimError.simulationStalled,
          (stepCounters 0 1
            (⟨⟨[("ap_clk", [true])], ()⟩, [], [], 0, 0, 0, 0, []⟩ :
              EngineState Unit)).2.1, true) :=
  ⟨(cycle_counter_and_success_return id id id "_" 0 2
      (⟨⟨[("ap_clk", [false])], ()⟩, [], [], 0, 0, 0, 0, []⟩ :
        EngineState Unit)
      (⟨⟨[("ap_clk", [true])], ()⟩, [], [], 0, 0, 0, 0, []⟩ :
        EngineState Unit)).1 rfl,
    (cycle_counter_and_success_return id id id "_" 0 2
      (⟨⟨[("ap_clk", [false])], ()⟩, [], [], 0, 0, 0, 0, []⟩ :
        EngineState Unit)
      (⟨⟨[("ap_clk", [true])], ()⟩, [], [], 0, 0, 0, 0, []⟩ :
        EngineState Unit)).2.1 rfl rfl (by decide) 0,
    (cycle_counter_and_success_return id id id "_" 0 1
      (⟨⟨[("ap_clk", [false])], ()⟩, [], [], 0, 0, 0, 0, []⟩ :
        EngineState Unit)
      (⟨⟨[("ap_clk", [true])], ()⟩, [], [], 0, 0, 0, 0, []⟩ :
        EngineState Unit)).2.2 rfl rfl (by decide)⟩

/-! ### Pending-writes dictionary lookups -/

theorem alistLookup_isSome_of_any {α : Type} {d : List (String × α)}
    {k : String} (h : d.any (fun p => p.1 = k) = true) :
    (alistLookup d k).isSome := by
  induction d with
  | nil => simp at h
  | cons p r ih =>
    by_cases hp : p.1 = k
    · simp [alistLookup, hp]
    · simp only [List.any_cons, hp, decide_eq_false, Bool.false_or] at h
      simp only [alistLookup, hp, if_false]
      exact ih h

theorem alistLookup_append_singleton_self {α : Type} {d : List (String × α)}
    {k : String} (v : α) (h : alistLookup d k = none) :
    alistLookup (d ++ [(k, v)]) k = some v := by
  induction d with
  | nil => simp [alistLookup]
  | cons p r ih =>
    by_cases hp : p.1 = k
    · simp [alistLookup, hp] at h
    · simp only [alistLookup, hp, if_false, List.cons_append] at h ⊢
      exact ih h

theorem alistLookup_append_singleton_ne {α : Type} (d : List (String × α))
    (k k' : String) (v : α) (h : k' ≠ k) :
    alistLookup (d ++ [(k, v)]) k' = alistLookup d k' := by
  induction d with
  | nil => simp [alistLookup, Ne.symm h]
  | cons p r ih =>
    by_cases hp : p.1 = k' <;> simp [alistLookup, hp, ih]

theorem alistLookup_none_of_not_any {α : Type} {d : List (String × α)}
    {k : String} (h : d.any (fun p => p.1 = k) = false) :
    alistLookup d k = none := by
  induction d with
  | nil => rfl
  | cons p r ih =>
    rw [List.any_cons, Bool.or_eq_false_iff] at h
    simp only [alistLookup, of_decide_eq_false h.1, if_false]
    exact ih h.2

theorem alistLookup_dictInsert_self {α : Type} (d : List (String × α))
    (k : String) (v : α) : alistLookup (dictInsert k v d) k = some v := by
  unfold dictInsert
  split <;> rename_i h
  · exact alistLookup_update_self v (alistLookup_isSome_of_any h)
  · have hf : d.any (fun p => p.1 = k) = false := by
      revert h
      cases d.any (fun p => p.1 = k) <;> simp
    exact alistLookup_append_singleton_self v (alistLookup_none_of_not_any hf)

theorem alistLookup_dictInsert_ne {α : Type} (d : List (String × α))
    (k k' : String) (v : α) (h : k' ≠ k) :
    alistLookup (dictInsert k v d) k' = alistLookup d k' := by
  unfold dictInsert
  split
  · exact alistLookup_update_ne v h
  · exact alistLookup_append_singleton_ne d k k' v h

/-! ### Write-prep staging -/

theorem stageWrites_cons (sname : String) (d : List (String × Int))
    (p : String × List Nat) (ins : List (String × List Nat)) :
    stageWrites sname d (p :: ins) =
      stageWrites sname
        (dictInsert (p.1 ++ sname ++ "TDATA")
          (match p.2 with | [] => (0 : Int) | h :: _ => (h : Int))
          (dictInsert (p.1 ++ sname ++ "TVALID")
            (if 0 < p.2.length then (1 : Int) else 0) d)) ins := rfl

theorem stageWrites_lookup_untouched (sname : String)
    (ins : List (String × List Nat)) :
    ∀ (d : List (String × Int)) (k : String),
      (∀ p ∈ ins, ¬ k = p.1 ++ sname ++ "TVALID" ∧
        ¬ k = p.1 ++ sname ++ "TDATA") →
      alistLookup (stageWrites sname d ins) k = alistLookup d k := by
  induction ins with
  | nil => intro d k _; rfl
  | cons p ins ih =>
    intro d k h
    have hp := h p (List.mem_cons_self p ins)
    rw [stageWrites_cons,
      ih _ _ (fun q hq => h q (List.mem_cons_of_mem p hq)),
      alistLookup_dictInsert_ne _ _ _ _ hp.2,
      alistLookup_dictInsert_ne _ _ _ _ hp.1]

theorem stageWrites_lookup_channel (sname : String) :
    ∀ (ins : List (String × List Nat)) (d : List (String × Int))
      (c : String) (q : List Nat), (c, q) ∈ ins →
      stageKeysOk sname (ins.map Prod.fst) →
      alistLookup (stageWrites sname d ins) (c ++ sname ++ "TVALID") =
          some (if 0 < q.length then 1 else 0) ∧
        alistLookup (stageWrites sname d ins) (c ++ sname ++ "TDATA") =
          some (match q with | [] => (0 : Int) | h :: _ => (h : Int)) := by
  intro ins
  induction ins with
  | nil => intro d c q hmem _; cases hmem
  | cons p ins ih =>
    intro d c q hmem hkeys
    obtain ⟨cp, qp⟩ := p
    rw [List.map_cons] at hkeys
    obtain ⟨hV, hD, hX⟩ := hkeys
    obtain ⟨hVhead, hVtail⟩ := List.nodup_cons.mp hV
    obtain ⟨hDhead, hDtail⟩ := List.nodup_cons.mp hD
    rcases List.mem_cons.mp hmem with heq | hmem'
    · injection heq with h1 h2
      subst h1
      subst h2
      rw [stageWrites_cons]
      have huntouchedV :
          ∀ p' ∈ ins, ¬ c ++ sname ++ "TVALID" = p'.1 ++ sname ++ "TVALID" ∧
            ¬ c ++ sname ++ "TVALID" = p'.1 ++ sname ++ "TDATA" := by
        intro p' hp'
        constructor
        · intro hc
          apply hVhead
          show c ++ sname ++ "TVALID" ∈
            List.map (fun x => x ++ sname ++ "TVALID") (List.map Prod.fst ins)
          rw [hc]
          exact List.mem_map_of_mem _ (List.mem_map_of_mem Prod.fst hp')
        · exact hX c (List.mem_cons_self _ _) p'.1
            (List.mem_cons_of_mem _ (List.mem_map_of_mem Prod.fst hp'))
      have huntouchedD :
          ∀ p' ∈ ins, ¬ c ++ sname ++ "TDATA" = p'.1 ++ sname ++ "TVALID" ∧
            ¬ c ++ sname ++ "TDATA" = p'.1 ++ sname ++ "TDATA" := by
        intro p' hp'
        constructor
        · intro hc
          exact hX p'.1 (List.mem_cons_of_mem _
            (List.mem_map_of_mem Prod.fst hp')) c (List.mem_cons_self _ _)
            hc.symm
        · intro hc
          apply hDhead
          show c ++ sname ++ "TDATA" ∈
            List.map (fun x => x ++ sname ++ "TDATA") (List.map Prod.fst ins)
          rw [hc]
          exact List.mem_map_of_mem _ (List.mem_map_of_mem Prod.fst hp')
      have hVD : ¬ c ++ sname ++ "TVALID" = c ++ sname ++ "TDATA" :=
        hX c (List.mem_cons_self _ _) c (List.mem_cons_self _ _)
      constructor
      · rw [stageWrites_lookup_untouched sname ins _ _ huntouchedV,
          alistLookup_dictInsert_ne _ _ _ _ hVD,
          alistLookup_dictInsert_self]
      · rw [stageWrites_lookup_untouched sname ins _ _ huntouchedD,
          alistLookup_dictInsert_self]
    · rw [stageWrites_cons]
      refine ih _ c q hmem' ⟨hVtail, hDtail, ?_⟩
      intro a ha b hb
      exact hX a (List.mem_cons_of_mem _ ha) b (List.mem_cons_of_mem _ hb)

/-! ### Read-phase characterization -/

theorem readInputsSt_split {δ : Type} (sim : Sim δ) (sname c : String)
    (q : List Nat) (r v : Nat)
    (hR : read_signal sim (c ++ sname ++ "TREADY") = .ok r)
    (hV : read_signal sim (c ++ sname ++ "TVALID") = .ok v) :
    ∀ (pre post ins' : List (String × List Nat)),
      readInputsSt sim sname (pre ++ (c, q) :: post) = (none, ins') →
      ∃ pre' post',
        ins' = pre' ++ (c, if r = 1 ∧ v = 1 then q.drop 1 else q) :: post' ∧
          pre'.length = pre.length := by
  intro pre
  induction pre with
  | nil =>
    intro post ins' h
    rw [List.nil_append] at h
    simp only [readInputsSt, hR] at h
    by_cases hr : r = 1
    · rw [if_pos hr] at h
      simp only [hV] at h
      rw [Prod.mk.injEq] at h
      refine ⟨[], (readInputsSt sim sname post).2, ?_, rfl⟩
      rw [← h.2]
      simp [hr]
    · rw [if_neg hr] at h
      rw [Prod.mk.injEq] at h
      refine ⟨[], (readInputsSt sim sname post).2, ?_, rfl⟩
      rw [← h.2]
      simp [hr]
  | cons p pre ih =>
    intro post ins' h
    obtain ⟨cp, qp⟩ := p
    rw [List.cons_append] at h
    simp only [readInputsSt] at h
    cases hpR : read_signal sim (cp ++ sname ++ "TREADY") with
    | error e => simp only [hpR] at h; simp at h
    | ok rp =>
      simp only [hpR] at h
      by_cases hrp : rp = 1
      · rw [if_pos hrp] at h
        cases hpV : read_signal sim (cp ++ sname ++ "TVALID") with
        | error e => simp only [hpV] at h; simp at h
        | ok vp =>
          simp only [hpV] at h
          rw [Prod.mk.injEq] at h
          obtain ⟨h1, h2⟩ := h
          have hrec : readInputsSt sim sname (pre ++ (c, q) :: post) =
              (none, (readInputsSt sim sname (pre ++ (c, q) :: post)).2) := by
            rw [← Prod.mk.eta
              (p := readInputsSt sim sname (pre ++ (c, q) :: post)), h1]
          obtain ⟨pre', post', hins, hlen⟩ := ih post _ hrec
          refine ⟨(cp, if vp = 1 then qp.drop 1 else qp) :: pre', post',
            ?_, by simp [hlen]⟩
          rw [← h2, hins]
          rfl
      · rw [if_neg hrp] at h
        rw [Prod.mk.injEq] at h
        obtain ⟨h1, h2⟩ := h
        have hrec : readInputsSt sim sname (pre ++ (c, q) :: post) =
            (none, (readInputsSt sim sname (pre ++ (c, q) :: post)).2) := by
          rw [← Prod.mk.eta
            (p := readInputsSt sim sname (pre ++ (c, q) :: post)), h1]
        obtain ⟨pre', post', hins, hlen⟩ := ih post _ hrec
        refine ⟨(cp, qp) :: pre', post', ?_, by simp [hlen]⟩
        rw [← h2, hins]
        rfl

theorem toggle_pos_edge_applies_after {δ : Type} (adv : Sim δ → Sim δ)
    (simP s2 : Sim δ) (clk_name : String) (ws : List (String × Int))
    (hclk : write_signal simP clk_name 1 = (none, s2))
    (hws : ws.isEmpty = false) :
    toggle_pos_edge adv simP clk_name ws =
      stBind (applyWrites (adv s2) ws)
        (fun s' => (none, comb_update_and_trace s')) := by
  unfold toggle_pos_edge
  rw [hclk, stBind_none, hws]
  rfl

/-- C7: in a cycle's read phase the distinguished input channel's queue is
popped iff `TREADY` and `TVALID` both read 1; the write-prep phase stages
`TVALID = 1` iff the post-pop queue is non-empty and `TDATA` = its head (or
0 when empty); and the rising-edge operation applies the staged writes only
after driving the clock high and advancing time. -/
theorem handshake_read_stage_per_channel {δ : Type} (adv : Sim δ → Sim δ)
    (sim simP s2 : Sim δ) (sname c : String)
    (pre post ins' : List (String × List Nat)) (q : List Nat) (r v : Nat)
    (d ws : List (String × Int))
    (hR : read_signal sim (c ++ sname ++ "TREADY") = .ok r)
    (hV : read_signal sim (c ++ sname ++ "TVALID") = .ok v)
    (hread : readInputsSt sim sname (pre ++ (c, q) :: post) = (none, ins'))
    (hkeys : stageKeysOk sname (ins'.map Prod.fst))
    (hclk : write_signal simP "ap_clk" 1 = (none, s2))
    (hws : ws.isEmpty = false) :
    ins'[pre.length]? = some (c, if r = 1 ∧ v = 1 then q.drop 1 else q) ∧
      alistLookup (stageWrites sname d ins') (c ++ sname ++ "TVALID") =
        some (if 0 < (if r = 1 ∧ v = 1 then q.drop 1 else q).length then 1
          else 0) ∧
      alistLookup (stageWrites sname d ins') (c ++ sname ++ "TDATA") =
        some (match (if r = 1 ∧ v = 1 then q.drop 1 else q) with
          | [] => (0 : Int) | h :: _ => (h : Int)) ∧
      toggle_pos_edge adv simP "ap_clk" ws =
        stBind (applyWrites (adv s2) ws)
          (fun s' => (none, comb_update_and_trace s')) := by
  obtain ⟨pre', post', hins, hlen⟩ :=
    readInputsSt_split sim sname c q r v hR hV pre post ins' hread
  have hmem : (c, if r = 1 ∧ v = 1 then q.drop 1 else q) ∈ ins' := by
    rw [hins]
    exact List.mem_append_right _ (List.mem_cons_self _ _)
  have hstage := stageWrites_lookup_channel sname ins' d c _ hmem hkeys
  refine ⟨?_, hstage.1, hstage.2,
    toggle_pos_edge_applies_after adv simP s2 "ap_clk" ws hclk hws⟩
  rw [hins, ← hlen, List.getElem?_append_right le_rfl, Nat.sub_self]
  exact List.getElem?_cons_zero

/-- C7 witness: one channel `in0` with queue `[5, 7]`, both handshake
signals reading 1: the queue is popped to `[7]`, `TVALID` is staged 1 and
`TDATA` staged 7, and the rising edge applies them after the clock write
and time advance. -/
theorem handshake_read_stage_per_channel_witness :
    ([(("in0" : String), ([7] : List Nat))])[(0 : Nat)]? =
        some ("in0", if (1 : Nat) = 1 ∧ (1 : Nat) = 1 then
          ([5, 7] : List Nat).drop 1 else [5, 7]) ∧
      alistLookup (stageWrites "_" [] [("in0", [7])]) ("in0" ++ "_" ++ "TVALID")
        = some (if 0 < (if (1 : Nat) = 1 ∧ (1 : Nat) = 1 then
            ([5, 7] : List Nat).drop 1 else [5, 7]).length then 1 else 0) ∧
      alistLookup (stageWrites "_" [] [("in0", [7])]) ("in0" ++ "_" ++ "TDATA")
        = some (match (if (1 : Nat) = 1 ∧ (1 : Nat) = 1 then
            ([5, 7] : List Nat).drop 1 else [5, 7]) with
          | [] => (0 : Int) | h :: _ => (h : Int)) ∧
      toggle_pos_edge id
          (⟨[("ap_clk", [false]), ("in0_TREADY", [true]),
              ("in0_TVALID", [true]), ("in0_TDATA", [false, false, false])],
            ()⟩ : Sim Unit) "ap_clk"
          [("in0_TVALID", 1), ("in0_TDATA", 7)] =
        stBind (applyWrites (id
            (⟨[("ap_clk", [true]), ("in0_TREADY", [true]),
                ("in0_TVALID", [true]), ("in0_TDATA", [false, false, false])],
              ()⟩ : Sim Unit)) [("in0_TVALID", 1), ("in0_TDATA", 7)])
          (fun s' => (none, comb_update_and_trace s')) :=
  handshake_read_stage_per_channel id
    (⟨[("ap_clk", [false]), ("in0_TREADY", [true]), ("in0_TVALID", [true]),
        ("in0_TDATA", [false, false, false])], ()⟩ : Sim Unit)
    (⟨[("ap_clk", [false]), ("in0_TREADY", [true]), ("in0_TVALID", [true]),
        ("in0_TDATA", [false, false, false])], ()⟩ : Sim Unit)
    (⟨[("ap_clk", [true]), ("in0_TREADY", [true]), ("in0_TVALID", [true]),
        ("in0_TDATA", [false, false, false])], ()⟩ : Sim Unit)
    "_" "in0" [] [] [("in0", [7])] [5, 7] 1 1 []
    [("in0_TVALID", 1), ("in0_TDATA", 7)] rfl rfl rfl (by decide) rfl rfl

/-! ### Input queues are only ever replaced by their tails -/

theorem queueTails_refl (a : List (String × List Nat)) : queueTails a a :=
  ⟨rfl, fun _ _ _ => ⟨rfl, 0, (List.drop_zero _).symm⟩⟩

theorem queueTails_trans {a b c : List (String × List Nat)}
    (hab : queueTails a b) (hbc : queueTails b c) : queueTails a c := by
  obtain ⟨hlen1, h1⟩ := hab
  obtain ⟨hlen2, h2⟩ := hbc
  refine ⟨hlen2.trans hlen1, ?_⟩
  intro i h h'
  have hb : i < b.length := by omega
  obtain ⟨hn1, k1, hk1⟩ := h1 i h hb
  obtain ⟨hn2, k2, hk2⟩ := h2 i hb h'
  refine ⟨hn2.trans hn1, k1 + k2, ?_⟩
  rw [hk2, hk1, List.drop_drop]

theorem queueTails_cons {c : String} {q q' : List Nat}
    {a b : List (String × List Nat)} (hk : ∃ k, q' = q.drop k)
    (h : queueTails a b) : queueTails ((c, q) :: a) ((c, q') :: b) := by
  obtain ⟨hlen, hpt⟩ := h
  refine ⟨by simp [hlen], ?_⟩
  intro i hi hi'
  cases i with
  | zero => exact ⟨rfl, hk⟩
  | succ j =>
    rw [List.get_cons_succ, List.get_cons_succ]
    exact hpt j (by simpa using hi) (by simpa using hi')

theorem readInputsSt_queueTails {δ : Type} (sim : Sim δ) (sname : String) :
    ∀ ins, queueTails ins (readInputsSt sim sname ins).2 := by
  intro ins
  induction ins with
  | nil => exact queueTails_refl _
  | cons p ins ih =>
    obtain ⟨cp, qp⟩ := p
    cases hpR : read_signal sim (cp ++ sname ++ "TREADY") with
    | error e =>
      simp only [readInputsSt, hpR]
      exact queueTails_refl _
    | ok rp =>
      simp only [readInputsSt, hpR]
      by_cases hrp : rp = 1
      · rw [if_pos hrp]
        cases hpV : read_signal sim (cp ++ sname ++ "TVALID") with
        | error e =>
          simp only [hpV]
          exact queueTails_refl _
        | ok vp =>
          simp only [hpV]
          refine queueTails_cons ?_ ih
          by_cases hv : vp = 1
          · exact ⟨1, by simp [hv]⟩
          · exact ⟨0, by simp [hv]⟩
      · rw [if_neg hrp]
        exact queueTails_cons ⟨0, (List.drop_zero _).symm⟩ ih

theorem stepBody_queueTails {δ : Type} (adv hookPre hookPost : Sim δ → Sim δ)
    (sname : String) (st : EngineState δ) :
    queueTails st.inputs (stepBody adv hookPre hookPost sname st).2.inputs := by
  rcases hneg : toggle_neg_edge adv (hookPre st.sim) "ap_clk" with ⟨e1, s1⟩
  cases e1 with
  | some e =>
    simp only [stepBody, hneg]
    exact queueTails_refl _
  | none =>
    rcases hread : readInputsSt s1 sname st.inputs with ⟨e2, ins'⟩
    have hq : queueTails st.inputs ins' := by
      have h := readInputsSt_queueTails s1 sname st.inputs
      rw [hread] at h
      exact h
    cases e2 with
    | some e =>
      simp only [stepBody, hneg, hread]
      exact hq
    | none =>
      rcases hout : readOutputsSt s1 sname st.outputs with ⟨e3, outs', k⟩
      cases e3 with
      | some e =>
        simp only [stepBody, hneg, hread, hout]
        exact hq
      | none =>
        rcases hpos : toggle_pos_edge adv s1 "ap_clk"
            (stageWrites sname st.signalsToWrite ins') with ⟨e4, s2⟩
        cases e4 with
        | some e =>
          simp only [stepBody, hneg, hread, hout, hpos]
          exact hq
        | none =>
          simp only [stepBody, hneg, hread, hout, hpos]
          exact hq

theorem multiIOStep_queueTails {δ : Type}
    (adv hookPre hookPost : Sim δ → Sim δ) (sname : String) (num t : Nat)
    (st : EngineState δ) :
    queueTails st.inputs
      (multiIOStep adv hookPre hookPost sname num t st).2.1.inputs := by
  rcases hbody : stepBody adv hookPre hookPost sname st with ⟨e, s⟩
  have hq : queueTails st.inputs s.inputs := by
    have h := stepBody_queueTails adv hookPre hookPost sname st
    rw [hbody] at h
    exact h
  cases e with
  | some e =>
    simp only [multiIOStep, hbody]
    exact hq
  | none =>
    simp only [multiIOStep, hbody]
    rw [show (stepCounters num t s).2.1.inputs = s.inputs from by
      rw [stepCounters_eq]]
    exact hq

theorem multiIORun_queueTails {δ : Type}
    (adv hookPre hookPost : Sim δ → Sim δ) (sname : String) (num t : Nat) :
    ∀ (fuel : Nat) (st : EngineState δ),
      queueTails st.inputs
        (RunOut.state (multiIORun adv hookPre hookPost sname num t fuel
          st)).inputs := by
  intro fuel
  induction fuel with
  | zero => intro st; exact queueTails_refl _
  | succ f ih =>
    intro st
    rcases hstep : multiIOStep adv hookPre hookPost sname num t st
      with ⟨e, s, d⟩
    have hq : queueTails st.inputs s.inputs := by
      have h := multiIOStep_queueTails adv hookPre hookPost sname num t st
      rw [hstep] at h
      exact h
    cases e with
    | some e =>
      simp only [multiIORun, hstep]
      exact hq
    | none =>
      cases d with
      | true =>
        simp only [multiIORun, hstep]
        exact hq
      | false =>
        simp only [multiIORun, hstep]
        exact queueTails_trans hq (ih s)

/-- C10: the engine returns (or fails) with the caller's input-queue
mapping holding, per channel, exactly a tail of the original queue — the
words not yet consumed; each accepted transfer had replaced the queue by
its tail.  Concretely: one channel with queue `[5, 7]` and an
immediately-accepting design leaves the mapping at `[7]`, not the original
queue. -/
theorem rtlsim_inputs_unconsumed_tails {δ : Type} (fuel : Nat)
    (adv hookPre hookPost : Sim δ → Sim δ) (sim : Sim δ)
    (ins outs : List (String × List Nat)) (num : Nat) (sname : String)
    (t : Nat) :
    queueTails ins
      (RunOut.state (rtlsim_multi_io fuel adv hookPre hookPost sim ins outs
        num sname t)).inputs ∧
      (RunOut.state (rtlsim_multi_io 1 id id id
        (⟨[("ap_clk", [false]), ("in0_TREADY", [true]),
            ("in0_TVALID", [true]), ("in0_TDATA", [false, false, false])],
          ()⟩ : Sim Unit) [("in0", [5, 7])] [] 0 "_" 5)).inputs =
        [("in0", [7])] := by
  refine ⟨?_, by decide⟩
  rcases hsetup : setupOutputs sim sname outs with ⟨e, s⟩
  cases e with
  | some e =>
    simp only [rtlsim_multi_io, hsetup]
    exact queueTails_refl _
  | none =>
    simp only [rtlsim_multi_io, hsetup]
    exact multiIORun_queueTails adv hookPre hookPost sname num t fuel _

end PyxsiSpec
